import Mathlib

/-!
Verification of the trustlink-workflow email-to-CRM agent.

This file shallowly embeds the orchestration loop of
`src/email_processing_agent.py` (the `llm_provider == "openai"` path, the
variant every claim cites), the tool dispatcher `CRMTools.call_tool`, the
mail client's token cache (`src/ms_graph_api.py`, `MSGraphClient`), and the
CRM person lookup (`src/twenty_crm_api.py`, `TwentyCRMAPI.get_person_by_email`).

External effects are modelled as oracles:
  * the LLM chat endpoint is a function `Nat → LLMResult` giving, for each
    recursion depth, either the response message or the exception the call
    raises (`.raise`);
  * the two backing clients are `ToolEnv`: which method names each exposes
    (`hasattr`) and, for each invocation, whether the method returns a JSON
    value or raises (`ExecResult`).
JSON payloads are carried as a small `Json` value type; `json.dumps` of a
tool output is represented by storing the value itself in the tool message
(the dumps/loads round trip is the identity on these values).
-/

namespace TrustLink

/-- A minimal JSON value, enough for the payloads the agent manipulates. -/
inductive Json where
  | null
  | str (s : String)
  | num (n : Int)
  | boolean (b : Bool)
  | arr (elems : List Json)
  | obj (fields : List (String × Json))

/-- The raw `function.arguments` blob of a ToolCall, abstracted by what
`json.loads` does with it: either it parses to an object (`parsed`) or
raises `json.JSONDecodeError` (`malformed`). -/
inductive ArgBlob where
  | parsed (kwargs : List (String × Json))
  | malformed (raw : String)

/-- An OpenAI-style tool call: `{id, function.name, function.arguments}`. -/
structure ToolCall where
  id : String
  name : String
  arguments : ArgBlob

/-- `email_processing_agent.py` lines 400-406: `json.loads` the blob; on
`JSONDecodeError` log a warning and fall back to `function_args = {}`. -/
def parseArgsOrEmpty : ArgBlob → List (String × Json)
  | .parsed kwargs => kwargs
  | .malformed _ => []

/-- Outcome of running one underlying client method: it returns a JSON
value or raises an exception whose `str` is `msg`. -/
inductive ExecResult where
  | ok (v : Json)
  | exn (msg : String)

/-- The two backing clients as seen by `CRMTools.call_tool`: which method
names each exposes (`hasattr`) and what each invocation does. -/
structure ToolEnv where
  crmHas : String → Bool
  msHas : String → Bool
  runCrm : String → List (String × Json) → ExecResult
  runMs : String → List (String × Json) → ExecResult

/-- The `{"error": str(e)}` payload. -/
def errorObj (msg : String) : Json := .obj [("error", .str msg)]

/-- The `except Exception as e: return {"error": str(e)}` boundary applied
to one method invocation. -/
def execToResult : ExecResult → Json
  | .ok v => v
  | .exn msg => errorObj msg

/-- `CRMTools.call_tool` (`email_processing_agent.py` lines 253-267):
resolve `tool_name` with `hasattr` against the CRM client first, then the
mail client; if neither matches, `raise ValueError(f"Tool '{tool_name}' not
found.")`; the surrounding `try/except Exception` converts any exception
(including that `ValueError`) into `{"error": str(e)}`. -/
def call_tool (env : ToolEnv) (tool_name : String) (kwargs : List (String × Json)) : Json :=
  if env.crmHas tool_name then execToResult (env.runCrm tool_name kwargs)
  else if env.msHas tool_name then execToResult (env.runMs tool_name kwargs)
  else errorObj ("Tool " ++ sq tool_name ++ " not found.")
where
  /-- wraps a name in the single quotes the f-string produces -/
  sq (s : String) : String := "\x27" ++ s ++ "\x27"

/-- One entry of the `messages` list the agent maintains. -/
inductive Message where
  | system (content : String)
  | user (content : String)
  | assistant (content : Option String) (tool_calls : List ToolCall)
  | tool (tool_call_id : String) (name : String) (content : Json)

/-- The message part of one chat-completion response:
`response.choices[0].message`, i.e. optional text plus tool calls
(`tool_calls` is `None`/empty when absent, modelled as `[]`). -/
structure LLMMessage where
  content : Option String
  tool_calls : List ToolCall

/-- One chat-completion exchange: the endpoint answers with a message or
the client call raises an exception whose `str` is `e`. -/
inductive LLMResult where
  | msg (m : LLMMessage)
  | raise (e : String)

/-- The tool message appended for one ToolCall
(`email_processing_agent.py` lines 408-417): parse the arguments (empty
dict on failure), run `call_tool`, append
`{tool_call_id, role: "tool", name, content: json.dumps(tool_output)}`. -/
def toolResponse (env : ToolEnv) (tc : ToolCall) : Message :=
  .tool tc.id tc.name (call_tool env tc.name (parseArgsOrEmpty tc.arguments))

/-- What one run of `_call_ai_with_tools` leaves behind: the final
`messages` list, the number of chat-completion requests issued, the number
of `call_tool` invocations performed, and the returned value. -/
structure RunOutcome where
  messages : List Message
  submissions : Nat
  toolInvocations : Nat
  result : Option String

/-- `EmailProcessingAgent.__init__`: `self.max_depth = 4`. -/
def maxDepthDefault : Nat := 4

/-- The string returned when the depth guard fires
(`email_processing_agent.py` line 294). -/
def stoppedMessage : String := "Stopped due to exceeding maximum reasoning depth."

/-- Recursion core of `_call_ai_with_tools` (lines 290-429), structured on
the quantity `max_depth + 1 - depth`: the guard `depth > self.max_depth`
holds exactly when that quantity is zero, and each recursive call
(`depth + 1`) decreases it by one, so `remaining = 0` is precisely the
guard branch.  In the non-guard branch: issue one chat-completion request
(`script depth`); if the call raises, the enclosing
`except Exception as e: return f"Error: {e}"` fires; otherwise, if the
response carries tool calls, append the assistant message, then one tool
message per call (in order), and recurse with `depth + 1`; if it carries
none, return `response_message.content`. -/
def callAIAux (env : ToolEnv) (script : Nat → LLMResult) :
    Nat → List Message → Nat → Nat → Nat → RunOutcome
  | 0, messages, subs, invs, _ =>
    ⟨messages, subs, invs, some stoppedMessage⟩
  | remaining + 1, messages, subs, invs, depth =>
    match script depth with
    | .raise e => ⟨messages, subs + 1, invs, some ("Error: " ++ e)⟩
    | .msg m =>
      if m.tool_calls.isEmpty then
        ⟨messages, subs + 1, invs, m.content⟩
      else
        callAIAux env script remaining
          ((messages ++ [Message.assistant m.content m.tool_calls])
            ++ m.tool_calls.map (toolResponse env))
          (subs + 1) (invs + m.tool_calls.length) (depth + 1)

/-- `_call_ai_with_tools(self, messages, depth)` with the recursion depth
measured by `max_depth + 1 - depth` (see `callAIAux`). -/
def call_ai_with_tools (env : ToolEnv) (script : Nat → LLMResult) (max_depth : Nat)
    (messages : List Message) (subs invs depth : Nat) : RunOutcome :=
  callAIAux env script (max_depth + 1 - depth) messages subs invs depth

/-- The email fields `process_single_email` extracts from the raw message
JSON (lines 432-437); the `.get` defaulting and sender-name derivation are
upstream of everything the claims state, so the extracted values are taken
as given. -/
structure EmailData where
  id : String
  subject : String
  body : String
  senderEmail : String
  senderName : String
deriving DecidableEq, Repr

/-- The fixed system instruction (lines 444-457); content abbreviated is
not an option here: this is the literal prompt text. -/
def systemPrompt : String :=
  "You are an intelligent email processing agent for a legal office CRM. Your primary goal is to analyze incoming emails and use the provided tools to accurately update or create records in the Twenty CRM system.\n\n                Follow these steps:\n                1. Always start by trying to find the sender in the CRM using `get_person_by_email`.\n                2. Based on the email content and whether a person was found/created, decide the appropriate CRM action:\n                   - If it\x27s a new client seeking legal services, `create_opportunity` (after ensuring a person exists).\n                   - If it\x27s a follow-up or update related to an ongoing case, find existing opportunities for the person using `get_opportunities_by_person_id` and then use `add_note_to_record` to add the email content to the most relevant opportunity.\n                   - If it\x27s general communication not directly tied to an opportunity, use `add_standalone_note` (linked to a person if one exists).\n                   - If the email is clearly spam, an out-of-office reply, or completely irrelevant, no CRM action is needed, but you must still mark the email processed.\n                3. After all necessary CRM actions are completed, you MUST call the `mark_email_processed` tool with the email ID to mark the original email as read.\n                4. Be concise in your direct text responses; prefer to use tools. If you need to tell me something, make it a brief summary of actions taken or why no action was taken (e.g., \"Email processed: New opportunity created and email marked as read.\").\n                "

/-- The user message built from one email (lines 459-471, the f-string). -/
def userPrompt (e : EmailData) : String :=
  "\n                Analyze the following email and perform the necessary CRM actions using the provided tools.\n\n                Email Subject: " ++ e.subject
    ++ "\n                Sender: " ++ e.senderName ++ " <" ++ e.senderEmail
    ++ ">\n                Email Body:\n                " ++ e.body
    ++ "\n\n                After determining what actions to take, ensure the email is marked as processed by calling the \x27mark_email_processed\x27 tool.\n                "

/-- The seeded conversation: fixed system instruction, then the user
message derived from the email (lines 443-472). -/
def initial_messages (e : EmailData) : List Message :=
  [.system systemPrompt, .user (userPrompt e)]

/-- `process_single_email`: seed the conversation and run
`_call_ai_with_tools(messages)` (default `depth = 0`); its blanket
`try/except` around that call is dead for the modelled behaviours, since
the embedded loop is a total function (the source loop catches every
exception itself). -/
def process_single_email (env : ToolEnv) (script : Nat → LLMResult) (e : EmailData) :
    RunOutcome :=
  call_ai_with_tools env script maxDepthDefault (initial_messages e) 0 0 0

/-! ## Conversation-shape observers

Executable checkers over a `messages` list, used to state the conversation
invariants (claim C5) and their failure. -/

/-- Is this a `role: "tool"` message? -/
def isToolMessage : Message → Bool
  | .tool _ _ _ => true
  | _ => false

/-- Number of Tool messages in the conversation. -/
def countToolMessages (msgs : List Message) : Nat :=
  (msgs.filter isToolMessage).length

/-- The tool-call identifiers carried by the assistant messages, in the
order the calls were issued. -/
def assistantCallIds (msgs : List Message) : List String :=
  msgs.flatMap fun m =>
    match m with
    | .assistant _ tcs => tcs.map ToolCall.id
    | _ => []

/-- The correlation identifiers of the Tool messages, in conversation
order. -/
def toolMessageIds (msgs : List Message) : List String :=
  msgs.flatMap fun m =>
    match m with
    | .tool tid _ _ => [tid]
    | _ => []

/-- Checker for the block shape of a conversation.  The second argument is
the list of tool calls still awaiting their Tool responses: while it is
nonempty, the next message must be the Tool message answering its head
(matched by identifier); once it is empty, an assistant message opens a new
block whose (nonempty) tool-call list must be answered next, a Tool message
is ill-placed, and system/user messages pass through. -/
def wfConversation : List Message → List ToolCall → Bool
  | msgs, tc :: tcs =>
    match msgs with
    | .tool tid _ _ :: rest => tid == tc.id && wfConversation rest tcs
    | _ => false
  | [], [] => true
  | .assistant _ tcs :: rest, [] => !tcs.isEmpty && wfConversation rest tcs
  | .tool _ _ _ :: _, [] => false
  | .system _ :: rest, [] => wfConversation rest []
  | .user _ :: rest, [] => wfConversation rest []

/-- The literal adjacency property claimed by the spec: every Tool message
is *immediately* preceded by the assistant message whose tool-call list
contains its correlation identifier. -/
def toolRightAfterItsAssistant (msgs : List Message) : Bool :=
  (List.range msgs.length).all fun i =>
    match msgs.get? i with
    | some (.tool tid _ _) =>
      match i, msgs.get? (i - 1) with
      | _ + 1, some (.assistant _ tcs) => tcs.any fun tc => tc.id == tid
      | _, _ => false
    | _ => true

/-- Does this JSON value deserialize to an object with an `error` key? -/
def jsonHasErrorKey : Json → Bool
  | .obj fields => fields.any fun kv => kv.1 == "error"
  | _ => false

/-- Does the response carry at least one tool call? -/
def responseHasToolCalls : LLMResult → Bool
  | .msg m => !m.tool_calls.isEmpty
  | .raise _ => false

/-! ## Mail client token cache (`src/ms_graph_api.py`) -/

/-- `MSGraphClient` state: constructor arguments plus the single mutable
field `self._access_token`, initialised to `None`. -/
structure MSGraphClient where
  client_id : String
  authority : String
  scope : List String
  accessTokenCache : Option String
deriving DecidableEq

/-- Outcome of one MSAL acquisition (silent or device flow, lines 22-37):
either a token string is obtained (`"access_token" in result`) or one of
the `raise` paths fires with message `msg`. -/
inductive AcqResult where
  | ok (token : String)
  | fail (msg : String)
deriving DecidableEq

/-- The acquisition arm of `get_access_token`: on success store the token
in `self._access_token`; on failure the exception propagates. -/
def acquireStore (acq : AcqResult) (c : MSGraphClient) :
    Except String (String × MSGraphClient) :=
  match acq with
  | .ok token => .ok (token, { c with accessTokenCache := some token })
  | .fail msg => .error msg

/-- `MSGraphClient.get_access_token` (lines 20-38): `if not
self._access_token:` — Python truthiness, so both `None` and the empty
string trigger acquisition — acquire and store, then `return
self._access_token`. -/
def get_access_token (acq : AcqResult) (c : MSGraphClient) :
    Except String (String × MSGraphClient) :=
  match c.accessTokenCache with
  | none => acquireStore acq c
  | some t => if t == "" then acquireStore acq c else .ok (t, c)

/-! ## CRM person lookup (`src/twenty_crm_api.py`) -/

/-- One entry of a person's `emails.additionalEmails` array as the
client-side check sees it: either a dict, whose `email` key may be absent
(`add_email_obj.get('email', '')` then yields `""`), or a non-dict value,
which `isinstance(add_email_obj, dict)` rejects. -/
inductive AdditionalEmailEntry where
  | dictEntry (email : Option String)
  | nonDict
deriving DecidableEq

/-- One person record from the CRM response, reduced to what
`get_person_by_email` inspects: `person.get("emails", {}).get
("primaryEmail", "")`, the `additionalEmails` list, and an opaque
identifier standing for the rest of the record. -/
structure CRMPerson where
  recordId : String
  primaryEmail : String
  additionalEmails : List AdditionalEmailEntry
deriving DecidableEq

/-- A successful (HTTP 2xx, JSON-parsed) CRM response to the people query,
classified by the two structural checks of lines 110-117: the body may not
be a dict, `data.people` may not be a list, or it is a person list. -/
inductive CRMPeopleResponse where
  | notDict
  | peopleNotList
  | people (ps : List CRMPerson)
deriving DecidableEq

/-- The value `get_person_by_email` returns: `{"people": [...]}` or
`{"error": "..."}`. -/
inductive PersonLookupResult where
  | found (people : List CRMPerson)
  | errorResult (msg : String)
deriving DecidableEq

/-- Python's `str.lower()` as the code applies it to email addresses:
lower-case every character. -/
def pyLower (s : String) : String := ⟨s.data.map Char.toLower⟩

/-- Does one `additionalEmails` entry match the queried address
(lines 135-137): `isinstance(..., dict)` and
`add_email_obj.get('email', '').lower() == email.lower()`? -/
def emailEntryMatches (email : String) : AdditionalEmailEntry → Bool
  | .dictEntry v => pyLower (v.getD "") == pyLower email
  | .nonDict => false

/-- The client-side verification of lines 126-138: the person's
`primaryEmail` (lower-cased) equals the queried email (lower-cased), or
some `additionalEmails` entry matches. -/
def personMatchesEmail (email : String) (p : CRMPerson) : Bool :=
  pyLower p.primaryEmail == pyLower email
    || p.additionalEmails.any (emailEntryMatches email)

/-- `TwentyCRMAPI.get_person_by_email` (lines 83-155), given the parsed
response: reject non-dict bodies and non-list `people`; return
`{"people": []}` when the server-side filter found nobody; otherwise keep
exactly the persons passing the client-side verification, returning
`{"people": []}` when none passes (lines 140-145 collapse to the filter in
both branches). -/
def get_person_by_email (email : String) (resp : CRMPeopleResponse) :
    PersonLookupResult :=
  match resp with
  | .notDict => .errorResult "Invalid response format from CRM"
  | .peopleNotList => .errorResult "Unexpected people data structure"
  | .people ps =>
    if ps.isEmpty then .found []
    else .found (ps.filter (personMatchesEmail email))

/-! ## Structural lemmas about the loop -/

/-- The loop only appends to the conversation: whatever `messages` it
starts from is a prefix of the conversation it leaves behind. -/
theorem callAIAux_messages_extend (env : ToolEnv) (script : Nat → LLMResult) :
    ∀ (rem : Nat) (msgs : List Message) (s i d : Nat),
      msgs <+: (callAIAux env script rem msgs s i d).messages := by
  intro rem
  induction rem with
  | zero => intro msgs s i d; exact List.prefix_refl _
  | succ n ih =>
    intro msgs s i d
    simp only [callAIAux]
    cases script d with
    | raise e => exact List.prefix_refl _
    | msg m =>
      by_cases h : m.tool_calls.isEmpty
      · simp only [h, if_true]; exact List.prefix_refl _
      · simp only [h, if_false, Bool.false_eq_true]
        refine List.IsPrefix.trans ?_ (ih _ _ _ _)
        exact ⟨[Message.assistant m.content m.tool_calls]
          ++ m.tool_calls.map (toolResponse env), by simp⟩

/-- Tool messages appended by the responses of one turn, one per tool
call. -/
theorem countToolMessages_toolResponses (env : ToolEnv) :
    ∀ tcs : List ToolCall,
      countToolMessages (tcs.map (toolResponse env)) = tcs.length := by
  intro tcs
  induction tcs with
  | nil => rfl
  | cons tc tcs ih =>
    simp only [List.map_cons, countToolMessages, List.filter_cons] at ih ⊢
    simp [toolResponse, isToolMessage, ih]

/-- Counting tool messages distributes over conversation concatenation. -/
theorem countToolMessages_append (l₁ l₂ : List Message) :
    countToolMessages (l₁ ++ l₂) = countToolMessages l₁ + countToolMessages l₂ := by
  simp [countToolMessages, List.filter_append]

/-- The `call_tool` invocation counter moves in lockstep with the number
of Tool messages added to the conversation. -/
theorem callAIAux_toolCount (env : ToolEnv) (script : Nat → LLMResult) :
    ∀ (rem : Nat) (msgs : List Message) (s i d : Nat),
      countToolMessages (callAIAux env script rem msgs s i d).messages + i
        = countToolMessages msgs + (callAIAux env script rem msgs s i d).toolInvocations := by
  intro rem
  induction rem with
  | zero => intro msgs s i d; rfl
  | succ n ih =>
    intro msgs s i d
    simp only [callAIAux]
    cases script d with
    | raise e => rfl
    | msg m =>
      by_cases h : m.tool_calls.isEmpty
      · simp only [h, if_true]
      · simp only [h, if_false, Bool.false_eq_true]
        have hmain := ih ((msgs ++ [Message.assistant m.content m.tool_calls])
            ++ m.tool_calls.map (toolResponse env))
          (s + 1) (i + m.tool_calls.length) (d + 1)
        rw [countToolMessages_append, countToolMessages_append,
          countToolMessages_toolResponses] at hmain
        have hassist : countToolMessages [Message.assistant m.content m.tool_calls] = 0 := rfl
        rw [hassist] at hmain
        omega

/-- Tool-message identifiers of the responses of one turn are exactly the
identifiers of the turn's tool calls, in order. -/
theorem toolMessageIds_toolResponses (env : ToolEnv) :
    ∀ tcs : List ToolCall,
      toolMessageIds (tcs.map (toolResponse env)) = tcs.map ToolCall.id := by
  intro tcs
  induction tcs with
  | nil => rfl
  | cons tc tcs ih => simp_all [toolMessageIds, toolResponse]

/-- The loop preserves the identifier correlation: Tool-message
identifiers list equal to the assistant-issued call identifiers list. -/
theorem callAIAux_ids (env : ToolEnv) (script : Nat → LLMResult) :
    ∀ (rem : Nat) (msgs : List Message) (s i d : Nat),
      toolMessageIds msgs = assistantCallIds msgs →
        toolMessageIds (callAIAux env script rem msgs s i d).messages
          = assistantCallIds (callAIAux env script rem msgs s i d).messages := by
  intro rem
  induction rem with
  | zero => intro msgs s i d hmsgs; exact hmsgs
  | succ n ih =>
    intro msgs s i d hmsgs
    simp only [callAIAux]
    cases script d with
    | raise e => exact hmsgs
    | msg m =>
      by_cases h : m.tool_calls.isEmpty
      · simp only [h, if_true]; exact hmsgs
      · simp only [h, if_false, Bool.false_eq_true]
        refine ih _ _ _ _ ?_
        simp only [toolMessageIds, assistantCallIds, List.flatMap_append] at hmsgs ⊢
        have h1 : toolMessageIds (m.tool_calls.map (toolResponse env))
            = m.tool_calls.map ToolCall.id := toolMessageIds_toolResponses env _
        simp only [toolMessageIds, assistantCallIds] at h1
        simp only [List.flatMap_append, hmsgs, h1]
        have h2 : ((m.tool_calls.map (toolResponse env)).flatMap fun msg =>
            match msg with
            | Message.assistant _ tcs => tcs.map ToolCall.id
            | _ => []) = [] := by
          simp only [List.flatMap_map]
          refine List.flatMap_eq_nil_iff.mpr ?_
          intro a _
          rfl
        simp only [List.flatMap_map] at h2 ⊢
        simp [h2]

/-- A well-formed conversation stays well formed when a block that is well
formed on its own is appended. -/
theorem wfConversation_append :
    ∀ (msgs : List Message) (pend : List ToolCall) (msgs₂ : List Message),
      wfConversation msgs pend = true → wfConversation msgs₂ [] = true →
        wfConversation (msgs ++ msgs₂) pend = true := by
  intro msgs
  induction msgs with
  | nil =>
    intro pend msgs₂ h₁ h₂
    cases pend with
    | nil => simpa using h₂
    | cons tc tcs => simp [wfConversation] at h₁
  | cons m rest ih =>
    intro pend msgs₂ h₁ h₂
    cases pend with
    | cons tc tcs =>
      cases m with
      | tool tid name content =>
        simp only [wfConversation, Bool.and_eq_true] at h₁
        simp only [List.cons_append, wfConversation, Bool.and_eq_true]
        exact ⟨h₁.1, ih _ _ h₁.2 h₂⟩
      | system c => simp [wfConversation] at h₁
      | user c => simp [wfConversation] at h₁
      | assistant c tcs' => simp [wfConversation] at h₁
    | nil =>
      cases m with
      | assistant c tcs' =>
        simp only [wfConversation, Bool.and_eq_true] at h₁
        simp only [List.cons_append, wfConversation, Bool.and_eq_true]
        exact ⟨h₁.1, ih _ _ h₁.2 h₂⟩
      | tool tid name content => simp [wfConversation] at h₁
      | system c =>
        simp only [wfConversation] at h₁
        simpa [wfConversation] using ih _ _ h₁ h₂
      | user c =>
        simp only [wfConversation] at h₁
        simpa [wfConversation] using ih _ _ h₁ h₂

/-- The Tool responses generated for a turn answer the turn's calls in
order, by identifier. -/
theorem wfConversation_toolResponses (env : ToolEnv) :
    ∀ tcs : List ToolCall,
      wfConversation (tcs.map (toolResponse env)) tcs = true := by
  intro tcs
  induction tcs with
  | nil => rfl
  | cons tc tcs ih => simp [wfConversation, toolResponse, ih]

/-- One appended turn — the assistant message carrying a nonempty
tool-call list, followed by its Tool responses — is a well-formed block. -/
theorem wfConversation_block (env : ToolEnv) (c : Option String) (tcs : List ToolCall)
    (h : tcs.isEmpty = false) :
    wfConversation (Message.assistant c tcs :: tcs.map (toolResponse env)) [] = true := by
  cases tcs with
  | nil => simp at h
  | cons tc tcs =>
    simp [wfConversation, toolResponse, wfConversation_toolResponses env tcs]

/-- The loop preserves conversation well-formedness. -/
theorem callAIAux_wf (env : ToolEnv) (script : Nat → LLMResult) :
    ∀ (rem : Nat) (msgs : List Message) (s i d : Nat),
      wfConversation msgs [] = true →
        wfConversation (callAIAux env script rem msgs s i d).messages [] = true := by
  intro rem
  induction rem with
  | zero => intro msgs s i d h; exact h
  | succ n ih =>
    intro msgs s i d h
    simp only [callAIAux]
    cases script d with
    | raise e => exact h
    | msg m =>
      by_cases hc : m.tool_calls.isEmpty
      · simp only [hc, if_true]; exact h
      · simp only [hc, if_false, Bool.false_eq_true]
        refine ih _ _ _ _ ?_
        rw [List.append_assoc, List.singleton_append]
        exact wfConversation_append msgs [] _ h
          (wfConversation_block env m.content m.tool_calls (by simpa using hc))

/-- The loop never issues more than `rem` further chat-completion
requests. -/
theorem callAIAux_submissions_le (env : ToolEnv) (script : Nat → LLMResult) :
    ∀ (rem : Nat) (msgs : List Message) (s i d : Nat),
      (callAIAux env script rem msgs s i d).submissions ≤ s + rem := by
  intro rem
  induction rem with
  | zero => intro msgs s i d; simp [callAIAux]
  | succ n ih =>
    intro msgs s i d
    simp only [callAIAux]
    cases script d with
    | raise e => simp
    | msg m =>
      by_cases h : m.tool_calls.isEmpty
      · simp only [h, if_true]; simp
      · simp only [h, if_false, Bool.false_eq_true]
        have := ih ((msgs ++ [Message.assistant m.content m.tool_calls])
            ++ m.tool_calls.map (toolResponse env))
          (s + 1) (i + m.tool_calls.length) (d + 1)
        omega

/-- When every response carries tool calls, the loop spends its whole
budget and ends in the depth-guard branch. -/
theorem callAIAux_submissions_allTools (env : ToolEnv) (script : Nat → LLMResult)
    (hall : ∀ k, responseHasToolCalls (script k) = true) :
    ∀ (rem : Nat) (msgs : List Message) (s i d : Nat),
      (callAIAux env script rem msgs s i d).submissions = s + rem ∧
        (callAIAux env script rem msgs s i d).result = some stoppedMessage := by
  intro rem
  induction rem with
  | zero => intro msgs s i d; exact ⟨rfl, rfl⟩
  | succ n ih =>
    intro msgs s i d
    have hk := hall d
    simp only [callAIAux]
    cases hs : script d with
    | raise e => rw [hs] at hk; simp [responseHasToolCalls] at hk
    | msg m =>
      rw [hs] at hk
      simp only [responseHasToolCalls, Bool.not_eq_true'] at hk
      simp only [hk, if_false, Bool.false_eq_true]
      have := ih ((msgs ++ [Message.assistant m.content m.tool_calls])
          ++ m.tool_calls.map (toolResponse env))
        (s + 1) (i + m.tool_calls.length) (d + 1)
      exact ⟨by omega, this.2⟩

/-! ## Unfolding lemmas for single turns -/

/-- Depth guard branch (`depth > self.max_depth`). -/
theorem callAIAux_zero (env : ToolEnv) (script : Nat → LLMResult)
    (msgs : List Message) (s i d : Nat) :
    callAIAux env script 0 msgs s i d = ⟨msgs, s, i, some stoppedMessage⟩ := rfl

/-- A turn whose chat-completion request raises. -/
theorem callAIAux_raise (env : ToolEnv) (script : Nat → LLMResult)
    (rem : Nat) (msgs : List Message) (s i d : Nat) (e : String)
    (h : script d = .raise e) :
    callAIAux env script (rem + 1) msgs s i d
      = ⟨msgs, s + 1, i, some ("Error: " ++ e)⟩ := by
  simp [callAIAux, h]

/-- A turn whose response carries no tool calls: its text is the final
answer. -/
theorem callAIAux_text (env : ToolEnv) (script : Nat → LLMResult)
    (rem : Nat) (msgs : List Message) (s i d : Nat) (m : LLMMessage)
    (h : script d = .msg m) (hc : m.tool_calls.isEmpty = true) :
    callAIAux env script (rem + 1) msgs s i d = ⟨msgs, s + 1, i, m.content⟩ := by
  simp [callAIAux, h, hc]

/-- A turn whose response carries tool calls: append the assistant
message and the tool responses, then recurse one level deeper. -/
theorem callAIAux_tools (env : ToolEnv) (script : Nat → LLMResult)
    (rem : Nat) (msgs : List Message) (s i d : Nat) (m : LLMMessage)
    (h : script d = .msg m) (hc : m.tool_calls.isEmpty = false) :
    callAIAux env script (rem + 1) msgs s i d
      = callAIAux env script rem
          ((msgs ++ [Message.assistant m.content m.tool_calls])
            ++ m.tool_calls.map (toolResponse env))
          (s + 1) (i + m.tool_calls.length) (d + 1) := by
  simp [callAIAux, h, hc]

/-! ## Concrete fixtures used by counterexamples and witnesses -/

/-- A concrete incoming email. -/
def sampleEmail : EmailData :=
  { id := "m1", subject := "Question", body := "Hello",
    senderEmail := "a@x.com", senderName := "A" }

/-- An environment in which neither client exposes any method. -/
def emptyEnv : ToolEnv :=
  { crmHas := fun _ => false, msHas := fun _ => false,
    runCrm := fun _ _ => .exn "unreachable", runMs := fun _ _ => .exn "unreachable" }

/-- An environment whose CRM client exposes `get_person_by_email`,
returning an empty people list, and whose mail client exposes nothing. -/
def crmOnlyEnv : ToolEnv :=
  { crmHas := fun n => n == "get_person_by_email", msHas := fun _ => false,
    runCrm := fun _ _ => .ok (Json.obj [("people", Json.arr [])]),
    runMs := fun _ _ => .exn "unreachable" }

/-- An LLM that requests the same lookup on every turn. -/
def loopingScript : Nat → LLMResult := fun _ =>
  .msg { content := none,
         tool_calls := [{ id := "call_0", name := "get_person_by_email",
                          arguments := .parsed [("email", Json.str "a@x.com")] }] }

/-! ## C1 — depth bounding of LLM submissions -/

/-- C1 counterexample: with `max_depth = 4` and an LLM that answers every
turn with a tool call, the loop issues 5 chat-completion requests, not the
`MAX_DEPTH = 4` the claim states: the source guard is
`depth > self.max_depth`, so depths 0,1,2,3,4 all submit. -/
theorem depth_guard_counterexample :
    (process_single_email crmOnlyEnv loopingScript sampleEmail).submissions = 5 ∧
      (process_single_email crmOnlyEnv loopingScript sampleEmail).submissions ≠ 4 := by
  exact ⟨rfl, by decide⟩

/-- C1 amended: the loop performs at most `max_depth + 1` LLM submissions
(a request is issued while `depth ≤ max_depth`), and a run in which every
LLM response contains tool calls makes exactly `max_depth + 1` submissions
and then terminates with the max-iterations condition returned as a value,
never raised. -/
theorem submissions_bounded (env : ToolEnv) (script : Nat → LLMResult) (e : EmailData) :
    (process_single_email env script e).submissions ≤ maxDepthDefault + 1 ∧
      ((∀ k, responseHasToolCalls (script k) = true) →
        (process_single_email env script e).submissions = maxDepthDefault + 1 ∧
          (process_single_email env script e).result = some stoppedMessage) := by
  constructor
  · simpa using callAIAux_submissions_le env script 5 (initial_messages e) 0 0 0
  · intro hall
    have h := callAIAux_submissions_allTools env script hall 5 (initial_messages e) 0 0 0
    simpa using h

/-- Witness for `submissions_bounded`: the all-tool-calls hypothesis holds
for `loopingScript`, and the bound is attained. -/
theorem submissions_bounded_witness :
    (process_single_email crmOnlyEnv loopingScript sampleEmail).submissions
        = maxDepthDefault + 1 ∧
      (process_single_email crmOnlyEnv loopingScript sampleEmail).result
        = some stoppedMessage :=
  (submissions_bounded crmOnlyEnv loopingScript sampleEmail).2 (fun _ => rfl)

/-! ## C3 — there is no retry/backoff around the LLM exchange -/

/-- An LLM endpoint that raises a rate-limit error on every attempt. -/
def rateLimitedScript : Nat → LLMResult := fun _ =>
  .raise "RateLimitError: 429 Too Many Requests"

/-- C3 counterexample: the claim asserts a retry/backoff wrapper (jittered
sleeps, doubling delay, bounded retries, re-raise on exhaustion).  With a
rate-limit failure on every attempt, the code performs exactly one
chat-completion attempt, never sleeps or retries, and returns — rather
than re-raises — the error formatted as a string. -/
theorem no_retry_counterexample :
    (process_single_email emptyEnv rateLimitedScript sampleEmail).submissions = 1 ∧
      (process_single_email emptyEnv rateLimitedScript sampleEmail).result
        = some "Error: RateLimitError: 429 Too Many Requests" := by
  exact ⟨rfl, rfl⟩

/-- C3 amended: the LLM exchange is wrapped by a single blanket
`try/except`, not a retry policy: any failure of the first request —
rate-limit-classified or not — ends the run after exactly that one
attempt, with no further submissions, and the loop returns the string
`"Error: <detail>"` instead of re-raising. -/
theorem llm_failure_single_attempt (env : ToolEnv) (script : Nat → LLMResult)
    (e : EmailData) (m : String) (h : script 0 = .raise m) :
    process_single_email env script e
      = ⟨initial_messages e, 1, 0, some ("Error: " ++ m)⟩ := by
  show callAIAux env script (4 + 1) (initial_messages e) 0 0 0 = _
  rw [callAIAux_raise env script 4 (initial_messages e) 0 0 0 m h]

/-- Witness for `llm_failure_single_attempt` at a concrete raising
endpoint. -/
theorem llm_failure_single_attempt_witness :
    process_single_email emptyEnv rateLimitedScript sampleEmail
      = ⟨initial_messages sampleEmail, 1, 0,
          some ("Error: " ++ "RateLimitError: 429 Too Many Requests")⟩ :=
  llm_failure_single_attempt emptyEnv rateLimitedScript sampleEmail
    "RateLimitError: 429 Too Many Requests" rfl

/-! ## C6 — non-rate-limit exceptions do not propagate to the caller -/

/-- An LLM endpoint whose underlying HTTP call raises a (non-rate-limit)
transport error. -/
def transportFailScript : Nat → LLMResult := fun _ => .raise "getaddrinfo failed"

/-- An LLM endpoint that succeeds, answering with the very text the
failing run returns. -/
def errorLookalikeScript : Nat → LLMResult := fun _ =>
  .msg { content := some "Error: getaddrinfo failed", tool_calls := [] }

/-- C6 counterexample: a transport-error run and a success-with-text run
produce *identical* outcomes — the exception is caught inside
`_call_ai_with_tools` and returned as an ordinary string, so nothing
propagates to `process_single_email` and the caller cannot structurally
distinguish an unrecoverable-transport-error outcome from a
success-with-text outcome. -/
theorem transport_error_indistinguishable :
    process_single_email emptyEnv transportFailScript sampleEmail
      = process_single_email emptyEnv errorLookalikeScript sampleEmail := by
  rfl

/-- C6 amended: any exception raised during the LLM exchange — rate-limit
or not — is caught by the blanket `except` inside `_call_ai_with_tools`
and converted into the returned value `"Error: <detail>"`; the current
email's turn loop stops there with no further submissions, the exception
never reaches `process_single_email`, and the run as a whole does not
crash.  The caller can tell this outcome apart from final text only by the
string itself. -/
theorem llm_exception_returned_not_raised (env : ToolEnv) (script : Nat → LLMResult)
    (max_depth : Nat) (msgs : List Message) (s i d : Nat) (en : String)
    (hd : d ≤ max_depth) (h : script d = .raise en) :
    call_ai_with_tools env script max_depth msgs s i d
      = ⟨msgs, s + 1, i, some ("Error: " ++ en)⟩ := by
  unfold call_ai_with_tools
  obtain ⟨rem, hrem⟩ : ∃ rem, max_depth + 1 - d = rem + 1 :=
    ⟨max_depth - d, by omega⟩
  rw [hrem, callAIAux_raise env script rem msgs s i d en h]

/-- Witness for `llm_exception_returned_not_raised` at depth 2 of a
partially-run conversation. -/
theorem llm_exception_returned_not_raised_witness :
    call_ai_with_tools emptyEnv transportFailScript 4 [] 2 1 2
      = ⟨[], 3, 1, some ("Error: " ++ "getaddrinfo failed")⟩ :=
  llm_exception_returned_not_raised emptyEnv transportFailScript 4 [] 2 1 2
    "getaddrinfo failed" (by decide) rfl

/-! ## C2 — malformed tool-call arguments -/

/-- An LLM that issues one tool call whose argument blob is malformed
JSON, then returns final text. -/
def malformedArgsScript : Nat → LLMResult := fun d =>
  if d = 0 then
    .msg { content := none,
           tool_calls := [{ id := "call_1", name := "get_person_by_email",
                            arguments := .malformed "email=a@x.com" }] }
  else .msg { content := some "done", tool_calls := [] }

/-- C2 counterexample: the claim says the dispatcher is never invoked for
a ToolCall whose arguments fail to parse and that an `error` ToolResult is
synthesized.  In the code, `json.loads` failure falls back to
`function_args = {}` and `call_tool` IS invoked: here it runs the real
`get_person_by_email` method, one invocation is recorded, and the Tool
message content is the method's ordinary result, with no `error` key. -/
theorem malformed_args_counterexample :
    (process_single_email crmOnlyEnv malformedArgsScript sampleEmail).toolInvocations = 1 ∧
      (process_single_email crmOnlyEnv malformedArgsScript sampleEmail).messages.get? 3
        = some (.tool "call_1" "get_person_by_email"
            (Json.obj [("people", Json.arr [])])) ∧
      jsonHasErrorKey (Json.obj [("people", Json.arr [])]) = false := by
  exact ⟨rfl, rfl, rfl⟩

/-- C2 amended: for a ToolCall whose argument blob fails to parse as JSON,
the dispatcher IS invoked — with an empty argument mapping — and a Tool
message correlated to that ToolCall's identifier is still appended, so the
LLM still receives exactly one response for every ToolCall it issued. -/
theorem malformed_args_dispatched_empty (env : ToolEnv) (e : EmailData)
    (cid name raw t : String) :
    process_single_email env
        (fun d => if d = 0
          then .msg ⟨none, [⟨cid, name, .malformed raw⟩]⟩
          else .msg ⟨some t, []⟩) e
      = ⟨initial_messages e
            ++ [.assistant none [⟨cid, name, .malformed raw⟩],
                .tool cid name (call_tool env name [])],
          2, 1, some t⟩ := by
  unfold process_single_email call_ai_with_tools
  rw [show maxDepthDefault + 1 - 0 = 4 + 1 from rfl]
  rw [callAIAux_tools _ _ 4 _ 0 0 0 ⟨none, [⟨cid, name, .malformed raw⟩]⟩ rfl rfl]
  rw [show (4 : Nat) = 3 + 1 from rfl]
  rw [callAIAux_text _ _ 3 _ _ _ _ ⟨some t, []⟩ rfl rfl]
  simp [toolResponse, parseArgsOrEmpty]

/-! ## C4 — tool-execution exceptions become error ToolResults -/

/-- C4 confirmed: an exception raised while a dispatched tool runs is
caught and converted into the ToolResult `{"error": str(exception)}`,
which is serialized into the corresponding Tool message; the loop itself
returns normally (here: the next turn's final text), never propagating the
tool-execution exception to its caller. -/
theorem tool_exception_absorbed (env : ToolEnv) (e : EmailData) (tc : ToolCall)
    (m t : String) (hcrm : env.crmHas tc.name = true)
    (hexn : env.runCrm tc.name (parseArgsOrEmpty tc.arguments) = .exn m) :
    process_single_email env
        (fun d => if d = 0 then .msg ⟨none, [tc]⟩ else .msg ⟨some t, []⟩) e
      = ⟨initial_messages e
            ++ [.assistant none [tc], .tool tc.id tc.name (errorObj m)],
          2, 1, some t⟩ := by
  unfold process_single_email call_ai_with_tools
  rw [show maxDepthDefault + 1 - 0 = 4 + 1 from rfl]
  rw [callAIAux_tools _ _ 4 _ 0 0 0 ⟨none, [tc]⟩ rfl rfl]
  rw [show (4 : Nat) = 3 + 1 from rfl]
  rw [callAIAux_text _ _ 3 _ _ _ _ ⟨some t, []⟩ rfl rfl]
  simp [toolResponse, call_tool, hcrm, hexn, execToResult]

/-- A CRM client whose `create_person` method raises. -/
def throwingCrmEnv : ToolEnv :=
  { crmHas := fun n => n == "create_person", msHas := fun _ => false,
    runCrm := fun _ _ => .exn "HTTPError: 500 Server Error",
    runMs := fun _ _ => .exn "unreachable" }

/-- A concrete `create_person` ToolCall. -/
def createPersonCall : ToolCall :=
  { id := "call_9", name := "create_person",
    arguments := .parsed [("first_name", Json.str "A"), ("email", Json.str "a@x.com")] }

/-- Witness for `tool_exception_absorbed`: a raising `create_person`
dispatch yields the `{"error": ...}` Tool message and the run still ends
with the final text. -/
theorem tool_exception_absorbed_witness :
    process_single_email throwingCrmEnv
        (fun d => if d = 0 then .msg ⟨none, [createPersonCall]⟩
          else .msg ⟨some "done", []⟩) sampleEmail
      = ⟨initial_messages sampleEmail
            ++ [.assistant none [createPersonCall],
                .tool "call_9" "create_person" (errorObj "HTTPError: 500 Server Error")],
          2, 1, some "done"⟩ :=
  tool_exception_absorbed throwingCrmEnv sampleEmail createPersonCall
    "HTTPError: 500 Server Error" "done" rfl rfl

/-! ## C7 — the two-tool-turn scenario -/

/-- A CRM client exposing `get_person_by_email` (empty result) and
`create_person`. -/
def crmTwoToolsEnv : ToolEnv :=
  { crmHas := fun n => n == "get_person_by_email" || n == "create_person",
    msHas := fun _ => false,
    runCrm := fun n _ =>
      if n == "get_person_by_email" then .ok (Json.obj [("people", Json.arr [])])
      else .ok (Json.obj [("id", Json.str "p1")]),
    runMs := fun _ _ => .exn "unreachable" }

/-- LLM turns: lookup, then create, then final text. -/
def threeTurnScript : Nat → LLMResult := fun d =>
  if d = 0 then
    .msg ⟨none, [⟨"call_1", "get_person_by_email",
      .parsed [("email", Json.str "a@x.com")]⟩]⟩
  else if d = 1 then
    .msg ⟨none, [⟨"call_2", "create_person",
      .parsed [("first_name", Json.str "A"), ("email", Json.str "a@x.com")]⟩]⟩
  else .msg ⟨some "Email processed.", []⟩

/-- C7 counterexample: the scenario run does make 3 LLM submissions and 2
tool invocations, but the Conversation ends with 6 messages, not the
claimed 7 — the final assistant text is returned to the caller and never
appended to the `messages` list. -/
theorem final_text_not_appended_counterexample :
    (process_single_email crmTwoToolsEnv threeTurnScript sampleEmail).submissions = 3 ∧
      (process_single_email crmTwoToolsEnv threeTurnScript sampleEmail).toolInvocations = 2 ∧
      (process_single_email crmTwoToolsEnv threeTurnScript sampleEmail).messages.length = 6 ∧
      (process_single_email crmTwoToolsEnv threeTurnScript sampleEmail).messages.length ≠ 7 := by
  exact ⟨rfl, rfl, rfl, by decide⟩

/-- C7 amended: in the run with exactly one ToolCall on turn 1, one on
turn 2 and final text on turn 3, the loop makes exactly 3 LLM submissions
and 2 tool invocations, and the Conversation ends with exactly 6 messages
— system, user, and two assistant/tool pairs; the final assistant text is
the return value, not a seventh message. -/
theorem two_tool_turns_scenario (env : ToolEnv) (e : EmailData)
    (tc₁ tc₂ : ToolCall) (t : String) :
    process_single_email env
        (fun d => if d = 0 then .msg ⟨none, [tc₁]⟩
          else if d = 1 then .msg ⟨none, [tc₂]⟩
          else .msg ⟨some t, []⟩) e
      = ⟨initial_messages e
            ++ [.assistant none [tc₁], toolResponse env tc₁,
                .assistant none [tc₂], toolResponse env tc₂],
          3, 2, some t⟩ ∧
      (process_single_email env
        (fun d => if d = 0 then .msg ⟨none, [tc₁]⟩
          else if d = 1 then .msg ⟨none, [tc₂]⟩
          else .msg ⟨some t, []⟩) e).messages.length = 6 := by
  have h : process_single_email env
      (fun d => if d = 0 then .msg ⟨none, [tc₁]⟩
        else if d = 1 then .msg ⟨none, [tc₂]⟩
        else .msg ⟨some t, []⟩) e
      = ⟨initial_messages e
            ++ [.assistant none [tc₁], toolResponse env tc₁,
                .assistant none [tc₂], toolResponse env tc₂],
          3, 2, some t⟩ := by
    unfold process_single_email call_ai_with_tools
    rw [show maxDepthDefault + 1 - 0 = 4 + 1 from rfl]
    rw [callAIAux_tools _ _ 4 _ 0 0 0 ⟨none, [tc₁]⟩ rfl rfl]
    rw [show (4 : Nat) = 3 + 1 from rfl]
    rw [callAIAux_tools _ _ 3 _ _ _ _ ⟨none, [tc₂]⟩ rfl rfl]
    rw [show (3 : Nat) = 2 + 1 from rfl]
    rw [callAIAux_text _ _ 2 _ _ _ _ ⟨some t, []⟩ rfl rfl]
    simp
  exact ⟨h, by rw [h]; simp [initial_messages]⟩

/-! ## C5 — conversation well-formedness -/

/-- An LLM that issues two tool calls in one turn, then final text. -/
def twoCallScript : Nat → LLMResult := fun d =>
  if d = 0 then
    .msg ⟨none, [⟨"call_1", "get_person_by_email",
        .parsed [("email", Json.str "a@x.com")]⟩,
      ⟨"call_2", "get_person_by_email",
        .parsed [("email", Json.str "b@x.com")]⟩]⟩
  else .msg ⟨some "done", []⟩

/-- C5 counterexample: when one assistant turn carries two ToolCalls, the
second Tool message is immediately preceded by the first Tool message, not
by the assistant message whose tool-call it answers — the claimed
immediate-adjacency invariant fails. -/
theorem tool_adjacency_counterexample :
    toolRightAfterItsAssistant
        (process_single_email crmOnlyEnv twoCallScript sampleEmail).messages
      = false := by
  rfl

/-- C5 amended: throughout any run the Conversation starts with the fixed
system instruction followed by the user message derived from the email;
Tool messages appear only in blocks directly after the assistant message
whose (nonempty) tool-call list they answer, one Tool message per ToolCall
in issue order, correlated by identifier (`wfConversation`); the Tool
message identifiers across the whole run equal the assistant-issued
tool-call identifiers in order; and the number of Tool messages equals the
number of tool invocations.  Only the *immediate* adjacency of every Tool
message to its assistant message had to be weakened to adjacency of the
block (sibling Tool responses of the same turn may intervene). -/
theorem conversation_well_formed (env : ToolEnv) (script : Nat → LLMResult)
    (e : EmailData) :
    (process_single_email env script e).messages.get? 0
        = some (.system systemPrompt) ∧
      (process_single_email env script e).messages.get? 1
        = some (.user (userPrompt e)) ∧
      wfConversation (process_single_email env script e).messages [] = true ∧
      toolMessageIds (process_single_email env script e).messages
        = assistantCallIds (process_single_email env script e).messages ∧
      countToolMessages (process_single_email env script e).messages
        = (process_single_email env script e).toolInvocations := by
  have hdef : process_single_email env script e
      = callAIAux env script (maxDepthDefault + 1 - 0) (initial_messages e) 0 0 0 := rfl
  obtain ⟨tail, htail⟩ :=
    callAIAux_messages_extend env script (maxDepthDefault + 1 - 0) (initial_messages e) 0 0 0
  refine ⟨?_, ?_, ?_, ?_, ?_⟩
  · rw [hdef, ← htail]; rfl
  · rw [hdef, ← htail]; rfl
  · rw [hdef]
    exact callAIAux_wf env script _ (initial_messages e) 0 0 0 rfl
  · rw [hdef]
    exact callAIAux_ids env script _ (initial_messages e) 0 0 0 rfl
  · rw [hdef]
    have h := callAIAux_toolCount env script (maxDepthDefault + 1 - 0)
      (initial_messages e) 0 0 0
    have h0 : countToolMessages (initial_messages e) = 0 := rfl
    omega

/-! ## C8 — dispatcher resolution order and error opacity -/

/-- C8 confirmed: `call_tool` resolves the operation name against the CRM
client first and the mail client second; when the matched method returns,
its value is the ToolResult; when it raises, the exception is caught and
converted to `{"error": str(e)}`; when neither client matches, the
`unknown tool` ValueError is likewise caught and converted — in every case
a value is returned, never a raised exception. -/
theorem dispatcher_resolution (env : ToolEnv) (opName : String)
    (kwargs : List (String × Json)) :
    (∀ v, env.crmHas opName = true → env.runCrm opName kwargs = .ok v →
        call_tool env opName kwargs = v) ∧
      (∀ m, env.crmHas opName = true → env.runCrm opName kwargs = .exn m →
        call_tool env opName kwargs = errorObj m) ∧
      (∀ v, env.crmHas opName = false → env.msHas opName = true →
        env.runMs opName kwargs = .ok v → call_tool env opName kwargs = v) ∧
      (∀ m, env.crmHas opName = false → env.msHas opName = true →
        env.runMs opName kwargs = .exn m → call_tool env opName kwargs = errorObj m) ∧
      (env.crmHas opName = false → env.msHas opName = false →
        call_tool env opName kwargs
          = errorObj ("Tool " ++ call_tool.sq opName ++ " not found.")) := by
  refine ⟨?_, ?_, ?_, ?_, ?_⟩
  · intro v h1 h2; simp [call_tool, h1, h2, execToResult]
  · intro m h1 h2; simp [call_tool, h1, h2, execToResult]
  · intro v h1 h2 h3; simp [call_tool, h1, h2, h3, execToResult]
  · intro m h1 h2 h3; simp [call_tool, h1, h2, h3, execToResult]
  · intro h1 h2; simp [call_tool, h1, h2]

/-- A mail-only environment for the second resolution branch. -/
def msOnlyEnv : ToolEnv :=
  { crmHas := fun _ => false, msHas := fun n => n == "mark_email_processed",
    runCrm := fun _ _ => .exn "unreachable", runMs := fun _ _ => .ok Json.null }

/-- Witness for `dispatcher_resolution`: a CRM-resolved call, a
mail-resolved call, and an unknown tool. -/
theorem dispatcher_resolution_witness :
    call_tool crmOnlyEnv "get_person_by_email" []
        = Json.obj [("people", Json.arr [])] ∧
      call_tool msOnlyEnv "mark_email_processed" [] = Json.null ∧
      call_tool emptyEnv "frobnicate" []
        = errorObj ("Tool " ++ call_tool.sq "frobnicate" ++ " not found.") :=
  ⟨(dispatcher_resolution crmOnlyEnv "get_person_by_email" []).1
      (Json.obj [("people", Json.arr [])]) rfl rfl,
    (dispatcher_resolution msOnlyEnv "mark_email_processed" []).2.2.1
      Json.null rfl rfl rfl,
    (dispatcher_resolution emptyEnv "frobnicate" []).2.2.2.2 rfl rfl⟩

/-! ## C9 — lazy, at-most-once token acquisition -/

/-- C9 confirmed: starting from a fresh client, the first
`get_access_token` call acquires a (nonempty) token and stores it in the
single cached field; a subsequent call returns that stored token with the
state unchanged and without performing another acquisition — its result
does not depend on the acquisition oracle at all; and any successful call
leaves every field of the client except the token cache untouched, so the
cache is the client's only mutable state. -/
theorem access_token_cached_once (cid auth : String) (scope : List String)
    (token : String) (acq₂ : AcqResult) (h : token ≠ "") :
    get_access_token (.ok token) ⟨cid, auth, scope, none⟩
        = .ok (token, ⟨cid, auth, scope, some token⟩) ∧
      get_access_token acq₂ ⟨cid, auth, scope, some token⟩
        = .ok (token, ⟨cid, auth, scope, some token⟩) ∧
      (∀ (acq : AcqResult) (c c' : MSGraphClient) (t : String),
        get_access_token acq c = .ok (t, c') →
          c'.client_id = c.client_id ∧ c'.authority = c.authority ∧
            c'.scope = c.scope) := by
  have hb : (token == "") = false := beq_eq_false_iff_ne.mpr h
  refine ⟨rfl, ?_, ?_⟩
  · simp [get_access_token, hb]
  · intro acq c c' t hc
    obtain ⟨cidc, authc, scopec, cache⟩ := c
    cases cache with
    | none =>
      cases acq with
      | ok tok =>
        simp only [get_access_token, acquireStore, Except.ok.injEq,
          Prod.mk.injEq] at hc
        obtain ⟨-, rfl⟩ := hc
        exact ⟨rfl, rfl, rfl⟩
      | fail msg => simp [get_access_token, acquireStore] at hc
    | some tcur =>
      cases hte : (tcur == "") with
      | true =>
        cases acq with
        | ok tok =>
          simp only [get_access_token, hte, if_true, acquireStore,
            Except.ok.injEq, Prod.mk.injEq] at hc
          obtain ⟨-, rfl⟩ := hc
          exact ⟨rfl, rfl, rfl⟩
        | fail msg => simp [get_access_token, hte, acquireStore] at hc
      | false =>
        simp only [get_access_token, hte, Bool.false_eq_true, if_false,
          Except.ok.injEq, Prod.mk.injEq] at hc
        obtain ⟨-, rfl⟩ := hc
        exact ⟨rfl, rfl, rfl⟩

/-- Witness for `access_token_cached_once`: the cached token survives even
an acquisition oracle that would fail on a second attempt. -/
theorem access_token_cached_once_witness :
    get_access_token (.ok "tok-123") ⟨"client", "https://login", ["Mail.Read"], none⟩
        = .ok ("tok-123", ⟨"client", "https://login", ["Mail.Read"], some "tok-123"⟩) ∧
      get_access_token (.fail "network down")
          ⟨"client", "https://login", ["Mail.Read"], some "tok-123"⟩
        = .ok ("tok-123", ⟨"client", "https://login", ["Mail.Read"], some "tok-123"⟩) :=
  ⟨(access_token_cached_once "client" "https://login" ["Mail.Read"] "tok-123"
      (.fail "network down") (by decide)).1,
    (access_token_cached_once "client" "https://login" ["Mail.Read"] "tok-123"
      (.fail "network down") (by decide)).2.1⟩

/-! ## C10 — the person lookup returns only exact (case-insensitive) matches -/

/-- C10 confirmed: on a well-formed people response,
`get_person_by_email` returns `{"people": L}` with `L` exactly the persons
passing the client-side check; every person in `L` matches the queried
address up to case — by `primaryEmail` or by a dict entry of
`additionalEmails` — persons failing the check are excluded, and when no
person matches the result is `{"people": []}`. -/
theorem person_lookup_exact_match (email : String) (ps : List CRMPerson) :
    get_person_by_email email (.people ps)
        = .found (ps.filter (personMatchesEmail email)) ∧
      (∀ p ∈ ps.filter (personMatchesEmail email),
        pyLower p.primaryEmail = pyLower email ∨
          ∃ entry ∈ p.additionalEmails, ∃ v : Option String,
            entry = .dictEntry v ∧ pyLower (v.getD "") = pyLower email) ∧
      (∀ p ∈ ps, personMatchesEmail email p = false →
        p ∉ ps.filter (personMatchesEmail email)) ∧
      ((∀ p ∈ ps, personMatchesEmail email p = false) →
        get_person_by_email email (.people ps) = .found []) := by
  refine ⟨?_, ?_, ?_, ?_⟩
  · cases ps with
    | nil => rfl
    | cons p ps' => rfl
  · intro p hp
    have hmatch := (List.mem_filter.mp hp).2
    simp only [personMatchesEmail, Bool.or_eq_true] at hmatch
    rcases hmatch with hprim | hadd
    · exact Or.inl (by simpa using hprim)
    · obtain ⟨entry, hentry, hm⟩ := List.any_eq_true.mp hadd
      cases entry with
      | dictEntry v =>
        refine Or.inr ⟨.dictEntry v, hentry, v, rfl, ?_⟩
        simpa [emailEntryMatches] using hm
      | nonDict => simp [emailEntryMatches] at hm
  · intro p hp hfalse hmem
    have := (List.mem_filter.mp hmem).2
    rw [hfalse] at this
    exact absurd this (by simp)
  · intro hall
    have hfil : ps.filter (personMatchesEmail email) = [] := by
      rw [List.filter_eq_nil_iff]
      intro p hp
      simp [hall p hp]
    cases ps with
    | nil => rfl
    | cons p ps' => simp [get_person_by_email, hfil]

/-- A person whose primary email matches the query up to case. -/
def alicePerson : CRMPerson := ⟨"p1", "a@x.com", []⟩

/-- A person who does not match the query. -/
def bobPerson : CRMPerson := ⟨"p2", "b@x.com", [.nonDict]⟩

/-- Witness for `person_lookup_exact_match`: the matching person is kept,
the non-matching person filtered out, and a no-match list yields
`{"people": []}`. -/
theorem person_lookup_exact_match_witness :
    get_person_by_email "A@X.com" (.people [alicePerson, bobPerson])
        = .found [alicePerson] ∧
      get_person_by_email "A@X.com" (.people [bobPerson]) = .found [] :=
  ⟨((person_lookup_exact_match "A@X.com" [alicePerson, bobPerson]).1).trans
      (by decide),
    (person_lookup_exact_match "A@X.com" [bobPerson]).2.2.2 (by decide)⟩

end TrustLink
